import Mathlib

/-!
# Verification of the mango-bets wagering program

A shallow embedding of `src/program/src/lib.rs` (a Solana program managing a
two-outcome wagering market) together with proofs about its handlers.

Modelling conventions:
* `Pubkey` is a natural number; its borsh encoding is 32 little-endian base-256
  digits, so any key below `256^32` round-trips.
* Account data buffers and instruction payloads are `List Nat` of byte values.
* `u64` arithmetic wraps modulo `2^64` (release-mode Rust semantics on BPF).
* `try_from_slice` requires the whole buffer to be consumed, as borsh does; a
  failed `expect` on a decode is modelled by the distinguished outcome
  `HandlerOutcome.panicked`.
* `serialize(&mut &mut data[..])` streams bytes through `std::io::Write` for
  `&mut [u8]`: when the encoding is longer than the buffer the fitting prefix
  is still copied before the write fails, which `serializeInto` reproduces.
* `Rent::get()?.minimum_balance` is host-supplied; it is passed to the
  handlers as a function `rent : Nat → Nat` of the account data length.
-/

/-- Little-endian base-256 digits of `v`, exactly `w` bytes (truncates above
`256^w`, as storing into a fixed-width field does). -/
def natToLE : Nat → Nat → List Nat
  | 0, _ => []
  | w + 1, v => (v % 256) :: natToLE w (v / 256)

/-- Value of a little-endian byte list (each entry reduced mod 256, matching a
real byte buffer). -/
def leToNat : List Nat → Nat
  | [] => 0
  | b :: bs => b % 256 + 256 * leToNat bs

/-- Outcome record of a bet: `BetOutcome` in the source. -/
structure BetOutcome where
  party1_result : Bool
  party2_result : Bool
deriving DecidableEq, Repr

/-- `BetOutcome::new()` from the source. -/
def BetOutcome.new : BetOutcome := ⟨false, false⟩

/-- Market state: `BetState` in the source. -/
structure BetState where
  creator : Nat
  name : List Nat
  description : List Nat
  total_pool : Nat
  party1_pool : Nat
  party2_pool : Nat
  outcome : BetOutcome
deriving DecidableEq, Repr

/-- Per-wager record: `BettorDetails` in the source. -/
structure BettorDetails where
  bet_placer_address : Nat
  value : Nat
  assoc_bet_address : Nat
  party1 : Bool
  party2 : Bool
deriving DecidableEq, Repr

/-- The slice of Solana's `AccountInfo` the program reads or writes. -/
structure AccountInfo where
  key : Nat
  owner : Nat
  is_signer : Bool
  lamports : Nat
  data : List Nat
deriving DecidableEq, Repr

/-- The `ProgramError` variants the program can return. -/
inductive ProgramError where
  | invalidInstructionData
  | incorrectProgramId
  | invalidAccountData
  | insufficientFunds
  | borshIoError
  | notEnoughAccountKeys
deriving DecidableEq, Repr

/-- Result of running a handler: `Ok(())`, `Err(e)`, or a Rust panic (the
source uses `expect` on borsh decodes). -/
inductive HandlerOutcome where
  | ok
  | err (e : ProgramError)
  | panicked
deriving DecidableEq, Repr

/-! ## Borsh encoding -/

def encodeBool (b : Bool) : List Nat := [if b then 1 else 0]

/-- Borsh encoding of `BetState`: pubkey, two length-prefixed strings, three
`u64`s, two bools. -/
def encodeBetState (s : BetState) : List Nat :=
  natToLE 32 s.creator ++
  natToLE 4 s.name.length ++ s.name ++
  natToLE 4 s.description.length ++ s.description ++
  natToLE 8 s.total_pool ++ natToLE 8 s.party1_pool ++ natToLE 8 s.party2_pool ++
  encodeBool s.outcome.party1_result ++ encodeBool s.outcome.party2_result

/-- Borsh encoding of `BettorDetails`: pubkey, `u64`, pubkey, two bools. -/
def encodeBettorDetails (d : BettorDetails) : List Nat :=
  natToLE 32 d.bet_placer_address ++
  natToLE 8 d.value ++
  natToLE 32 d.assoc_bet_address ++
  encodeBool d.party1 ++ encodeBool d.party2

/-! ## Borsh decoding (consuming parsers) -/

/-- Read `n` raw bytes. -/
def readBytes (n : Nat) (input : List Nat) : Option (List Nat × List Nat) :=
  if n ≤ input.length then some (input.take n, input.drop n) else none

/-- Read a little-endian unsigned integer of `w` bytes. -/
def readUInt (w : Nat) (input : List Nat) : Option (Nat × List Nat) :=
  (readBytes w input).map (fun p => (leToNat p.1, p.2))

/-- Read one borsh bool byte (only `0` and `1` are valid). -/
def readBool : List Nat → Option (Bool × List Nat)
  | [] => none
  | b :: rest => if b = 0 then some (false, rest)
                 else if b = 1 then some (true, rest) else none

/-- Read a borsh string: `u32` length then that many bytes. -/
def readString (input : List Nat) : Option (List Nat × List Nat) :=
  match readUInt 4 input with
  | none => none
  | some (len, r1) => readBytes len r1

/-- Parse a `BetState`, returning the remaining bytes. -/
def decodeBetStateAux (input : List Nat) : Option (BetState × List Nat) :=
  match readUInt 32 input with
  | none => none
  | some (creator, r1) =>
  match readString r1 with
  | none => none
  | some (name, r2) =>
  match readString r2 with
  | none => none
  | some (descr, r3) =>
  match readUInt 8 r3 with
  | none => none
  | some (tp, r4) =>
  match readUInt 8 r4 with
  | none => none
  | some (p1, r5) =>
  match readUInt 8 r5 with
  | none => none
  | some (p2, r6) =>
  match readBool r6 with
  | none => none
  | some (o1, r7) =>
  match readBool r7 with
  | none => none
  | some (o2, r8) =>
  some (⟨creator, name, descr, tp, p1, p2, ⟨o1, o2⟩⟩, r8)

/-- `BetState::try_from_slice`: the whole slice must be consumed. -/
def betStateTryFromSlice (input : List Nat) : Option BetState :=
  match decodeBetStateAux input with
  | some (s, []) => some s
  | _ => none

/-- Parse a `BettorDetails`, returning the remaining bytes. -/
def decodeBettorDetailsAux (input : List Nat) : Option (BettorDetails × List Nat) :=
  match readUInt 32 input with
  | none => none
  | some (addr, r1) =>
  match readUInt 8 r1 with
  | none => none
  | some (v, r2) =>
  match readUInt 32 r2 with
  | none => none
  | some (assoc, r3) =>
  match readBool r3 with
  | none => none
  | some (b1, r4) =>
  match readBool r4 with
  | none => none
  | some (b2, r5) =>
  some (⟨addr, v, assoc, b1, b2⟩, r5)

/-- `BettorDetails::try_from_slice`: the whole slice must be consumed. -/
def bettorDetailsTryFromSlice (input : List Nat) : Option BettorDetails :=
  match decodeBettorDetailsAux input with
  | some (d, []) => some d
  | _ => none

/-- `x.serialize(&mut &mut buf[..])`. Returns the write result and the buffer
afterwards: on overflow the fitting prefix has already been copied (std's
`Write for &mut [u8]` copies what fits before `write_all` reports failure). -/
def serializeInto (bytes buf : List Nat) : Except ProgramError Unit × List Nat :=
  if bytes.length ≤ buf.length then
    (Except.ok (), bytes ++ buf.drop bytes.length)
  else
    (Except.error ProgramError.borshIoError, bytes.take buf.length)

/-! ## Handlers (from `src/program/src/lib.rs`) -/

/-- `initialize_bet` (opcode 0, CreateMarket). Returns the outcome and the
updated account list. -/
def initialize_bet (program_id : Nat) (rent : Nat → Nat)
    (accounts : List AccountInfo) (instruction_data : List Nat) :
    HandlerOutcome × List AccountInfo :=
  match accounts with
  | writing_account_pda :: creator_account :: rest =>
    if writing_account_pda.owner ≠ program_id then
      (.err .incorrectProgramId, accounts)
    else if !creator_account.is_signer then
      (.err .incorrectProgramId, accounts)
    else
      match betStateTryFromSlice instruction_data with
      | none => (.panicked, accounts)
      | some bet_state =>
        if bet_state.creator ≠ creator_account.key then
          (.err .invalidInstructionData, accounts)
        else if bet_state.name.length < 5 then
          (.err .invalidInstructionData, accounts)
        else if bet_state.description.length < 10 then
          (.err .invalidAccountData, accounts)
        else if writing_account_pda.lamports < rent writing_account_pda.data.length then
          (.err .insufficientFunds, accounts)
        else
          let bet_state' : BetState :=
            { bet_state with
              total_pool := 0, party1_pool := 0, party2_pool := 0,
              outcome := BetOutcome.new }
          let ser := serializeInto (encodeBetState bet_state') writing_account_pda.data
          let writing' := { writing_account_pda with data := ser.2 }
          match ser.1 with
          | .error e => (.err e, writing' :: creator_account :: rest)
          | .ok _ => (.ok, writing' :: creator_account :: rest)
  | _ => (.err .notEnoughAccountKeys, accounts)

/-- `place_wager` (opcode 1, PlaceWager). -/
def place_wager (program_id : Nat) (rent : Nat → Nat)
    (accounts : List AccountInfo) (instruction_data : List Nat) :
    HandlerOutcome × List AccountInfo :=
  match accounts with
  | writing_account_pda :: wager_amount_pda :: bettor_account_pda :: creator_account :: rest =>
    if writing_account_pda.owner ≠ program_id then
      (.err .incorrectProgramId, accounts)
    else if !creator_account.is_signer then
      (.err .incorrectProgramId, accounts)
    else
      match bettorDetailsTryFromSlice instruction_data with
      | none => (.panicked, accounts)
      | some bettor_details =>
        match betStateTryFromSlice writing_account_pda.data with
        | none => (.panicked, accounts)
        | some bet_state =>
          let bet_amount_in_lamports := wager_amount_pda.lamports
          if bettor_account_pda.lamports < rent bettor_account_pda.data.length then
            (.err .insufficientFunds, accounts)
          else
            let bettor_details' := { bettor_details with value := bet_amount_in_lamports }
            let serB :=
              serializeInto (encodeBettorDetails bettor_details') bettor_account_pda.data
            let bettor' := { bettor_account_pda with data := serB.2 }
            match serB.1 with
            | .error e =>
              (.err e, writing_account_pda :: wager_amount_pda :: bettor' ::
                creator_account :: rest)
            | .ok _ =>
              let bet_state' : BetState :=
                { bet_state with
                  total_pool := (bet_state.total_pool + bet_amount_in_lamports) % 2 ^ 64,
                  party1_pool :=
                    if bettor_details'.party1 then
                      (bet_state.party1_pool + bet_amount_in_lamports) % 2 ^ 64
                    else bet_state.party1_pool,
                  party2_pool :=
                    if bettor_details'.party2 then
                      (bet_state.party2_pool + bet_amount_in_lamports) % 2 ^ 64
                    else bet_state.party2_pool }
              let writingLamports' :=
                (writing_account_pda.lamports + wager_amount_pda.lamports) % 2 ^ 64
              let serW :=
                serializeInto (encodeBetState bet_state') writing_account_pda.data
              let writing' :=
                { writing_account_pda with lamports := writingLamports', data := serW.2 }
              let wager' := { wager_amount_pda with lamports := 0 }
              match serW.1 with
              | .error e =>
                (.err e, writing' :: wager' :: bettor' :: creator_account :: rest)
              | .ok _ =>
                (.ok, writing' :: wager' :: bettor' :: creator_account :: rest)
  | _ => (.err .notEnoughAccountKeys, accounts)

/-- `settle_bet_outcome` (opcode 2, SettleOutcome): the source body is
`Ok(())` — no check, no read, no write. -/
def settle_bet_outcome (_program_id : Nat)
    (accounts : List AccountInfo) (_instruction_data : List Nat) :
    HandlerOutcome × List AccountInfo :=
  (.ok, accounts)

/-- `claim_winnings` (opcode 3, ClaimWinnings): the source body is
`Ok(())` — no check, no read, no write. -/
def claim_winnings (_program_id : Nat)
    (accounts : List AccountInfo) (_instruction_data : List Nat) :
    HandlerOutcome × List AccountInfo :=
  (.ok, accounts)

/-- `process_instruction`: the dispatch entrypoint. -/
def process_instruction (program_id : Nat) (rent : Nat → Nat)
    (accounts : List AccountInfo) (instruction_data : List Nat) :
    HandlerOutcome × List AccountInfo :=
  match instruction_data with
  | [] => (.err .invalidInstructionData, accounts)
  | b :: rest =>
    if b = 0 then initialize_bet program_id rent accounts rest
    else if b = 1 then place_wager program_id rent accounts rest
    else if b = 2 then settle_bet_outcome program_id accounts rest
    else if b = 3 then claim_winnings program_id accounts rest
    else (.err .invalidInstructionData, accounts)

/-- The state `initialize_bet` writes back: the payload's fields with all
three pools zeroed and a fresh outcome (lines 125-128 of the source). -/
def zeroedState (bs : BetState) : BetState :=
  { bs with
    total_pool := 0, party1_pool := 0, party2_pool := 0,
    outcome := BetOutcome.new }

/-- A concrete CreateMarket payload carrying nonzero pools and a set outcome,
used to witness that `initialize_bet` discards them. -/
def sampleBetPayload : BetState :=
  { creator := 7, name := [1, 2, 3, 4, 5],
    description := [1, 2, 3, 4, 5, 6, 7, 8, 9, 10],
    total_pool := 42, party1_pool := 17, party2_pool := 25,
    outcome := { party1_result := true, party2_result := true } }

/-- A concrete program-owned market record whose buffer exactly fits the
encoded state (66 + 5 + 10 = 81 bytes). -/
def sampleMarketAcct : AccountInfo :=
  { key := 5, owner := 1, is_signer := false, lamports := 100,
    data := List.replicate 81 0 }

/-- A concrete signing creator account. -/
def sampleCreatorAcct : AccountInfo :=
  { key := 7, owner := 0, is_signer := true, lamports := 0, data := [] }

/-- The market state `place_wager` writes back (lines 196-198 of the source):
`total_pool` always grows by the wagered amount, each side pool grows only
when its flag is set in the decoded payload. -/
def wageredState (s : BetState) (d : BettorDetails) (amt : Nat) : BetState :=
  { s with
    total_pool := (s.total_pool + amt) % 2 ^ 64,
    party1_pool := if d.party1 then (s.party1_pool + amt) % 2 ^ 64 else s.party1_pool,
    party2_pool := if d.party2 then (s.party2_pool + amt) % 2 ^ 64 else s.party2_pool }

/-- A freshly created two-sided market state (pools zero, unsettled). -/
def sampleOpenMarketState : BetState :=
  { creator := 7, name := [1, 2, 3, 4, 5],
    description := [1, 2, 3, 4, 5, 6, 7, 8, 9, 10],
    total_pool := 0, party1_pool := 0, party2_pool := 0,
    outcome := { party1_result := false, party2_result := false } }

/-- A program-owned market record holding `sampleOpenMarketState`. -/
def samplePoolMarketAcct : AccountInfo :=
  { key := 5, owner := 1, is_signer := false, lamports := 200,
    data := encodeBetState sampleOpenMarketState }

/-- A transient funding record carrying the wagered 100 lamports. -/
def sampleFundingAcct : AccountInfo :=
  { key := 8, owner := 0, is_signer := false, lamports := 100, data := [] }

/-- A wager record with room for the 74-byte encoded `BettorDetails`. -/
def sampleBettorAcct : AccountInfo :=
  { key := 9, owner := 1, is_signer := false, lamports := 50,
    data := List.replicate 74 0 }

/-- A wager payload backing neither side (`party1 = party2 = false`). -/
def sampleSidelessDetails : BettorDetails :=
  { bet_placer_address := 9, value := 0, assoc_bet_address := 5,
    party1 := false, party2 := false }

/-- A wager payload backing both sides (`party1 = party2 = true`). -/
def sampleBothTrueDetails : BettorDetails :=
  { bet_placer_address := 9, value := 0, assoc_bet_address := 5,
    party1 := true, party2 := true }

/-- A wager payload backing party 1 only. -/
def sampleParty1Details : BettorDetails :=
  { bet_placer_address := 9, value := 0, assoc_bet_address := 5,
    party1 := true, party2 := false }

/-- `sampleOpenMarketState` with the outcome flags set (settled for party 1):
identical to it in every other field. -/
def sampleSettledMarketState : BetState :=
  { sampleOpenMarketState with
    outcome := { party1_result := true, party2_result := false } }

/-- `samplePoolMarketAcct` holding the settled state instead. -/
def sampleSettledMarketAcct : AccountInfo :=
  { samplePoolMarketAcct with data := encodeBetState sampleSettledMarketState }

/-- A program-owned market record whose 10-byte buffer is too small for the
81-byte encoded state: `serialize` fails after copying the fitting prefix. -/
def sampleSmallMarketAcct : AccountInfo :=
  { key := 5, owner := 1, is_signer := false, lamports := 100,
    data := List.replicate 10 0 }

/-- One PlaceWager request against a market: the transient funding record,
the wager record to be written, the signing account, and the raw payload
(models the caller-supplied inputs of one `place_wager` invocation). -/
structure WagerCall where
  funding : AccountInfo
  bettor : AccountInfo
  creator : AccountInfo
  payload : List Nat
deriving DecidableEq, Repr

/-- Run one `place_wager` call against `market`, returning the updated market
record on success. -/
def runWager (pid : Nat) (rent : Nat → Nat) (market : AccountInfo)
    (wc : WagerCall) : Option AccountInfo :=
  match place_wager pid rent (market :: wc.funding :: wc.bettor :: wc.creator :: [])
      wc.payload with
  | (.ok, m' :: _) => some m'
  | _ => none

/-- Fold a sequence of PlaceWager calls over one market, failing if any call
fails. -/
def runWagers (pid : Nat) (rent : Nat → Nat) (market : AccountInfo) :
    List WagerCall → Option AccountInfo
  | [] => some market
  | wc :: wcs =>
    match runWager pid rent market wc with
    | none => none
    | some m' => runWagers pid rent m' wcs

/-- The payload decodes and backs exactly one side. -/
def WagerCall.oneSided (wc : WagerCall) : Bool :=
  match bettorDetailsTryFromSlice wc.payload with
  | some d => d.party1 != d.party2
  | none => false

def sampleParty2Details : BettorDetails :=
  { bet_placer_address := 9, value := 0, assoc_bet_address := 5,
    party1 := false, party2 := true }

def sampleFunding50Acct : AccountInfo :=
  { key := 10, owner := 0, is_signer := false, lamports := 50, data := [] }

def sampleWagerCall1 : WagerCall :=
  { funding := sampleFundingAcct, bettor := sampleBettorAcct,
    creator := sampleCreatorAcct, payload := encodeBettorDetails sampleParty1Details }

def sampleWagerCall2 : WagerCall :=
  { funding := sampleFunding50Acct, bettor := sampleBettorAcct,
    creator := sampleCreatorAcct, payload := encodeBettorDetails sampleParty2Details }

def sampleFinalMarketState : BetState :=
  { creator := 7, name := [1, 2, 3, 4, 5],
    description := [1, 2, 3, 4, 5, 6, 7, 8, 9, 10],
    total_pool := 150, party1_pool := 100, party2_pool := 50,
    outcome := { party1_result := false, party2_result := false } }

def sampleFinalMarketAcct : AccountInfo :=
  { key := 5, owner := 1, is_signer := false, lamports := 350,
    data := encodeBetState sampleFinalMarketState }

def sampleBrokenState : BetState :=
  { creator := 7, name := [1, 2, 3, 4, 5],
    description := [1, 2, 3, 4, 5, 6, 7, 8, 9, 10],
    total_pool := 100, party1_pool := 100, party2_pool := 100,
    outcome := { party1_result := false, party2_result := false } }


/-! ## Codec lemmas -/

theorem natToLE_length (w v : Nat) : (natToLE w v).length = w := by
  induction w generalizing v with
  | zero => rfl
  | succ w ih => simp [natToLE, ih]

theorem leToNat_lt (bs : List Nat) : leToNat bs < 256 ^ bs.length := by
  induction bs with
  | nil => simp [leToNat]
  | cons b bs ih =>
    simp only [leToNat, List.length_cons, pow_succ]
    set X := 256 ^ bs.length with hX
    omega

theorem leToNat_natToLE (w v : Nat) : leToNat (natToLE w v) = v % 256 ^ w := by
  induction w generalizing v with
  | zero => simp [natToLE, leToNat, Nat.mod_one]
  | succ w ih =>
    simp only [natToLE, leToNat, ih]
    rw [pow_succ', Nat.mod_mul]
    omega

theorem leToNat_natToLE_of_lt {w v : Nat} (h : v < 256 ^ w) :
    leToNat (natToLE w v) = v := by
  rw [leToNat_natToLE, Nat.mod_eq_of_lt h]

theorem readBytes_append (l r : List Nat) : readBytes l.length (l ++ r) = some (l, r) := by
  simp [readBytes, List.take_left, List.drop_left]

theorem readBytes_eq_some {n : Nat} {input out rest : List Nat}
    (h : readBytes n input = some (out, rest)) :
    out = input.take n ∧ rest = input.drop n ∧ out.length = n ∧
      input.length = n + rest.length := by
  unfold readBytes at h
  split at h
  · next hle =>
    injection h with h'
    injection h' with h1 h2
    subst h1; subst h2
    refine ⟨rfl, rfl, ?_, ?_⟩
    · simp [List.length_take, Nat.min_eq_left hle]
    · simp [List.length_drop]; omega
  · cases h

theorem readBytes_append_of_length {n : Nat} (l r : List Nat) (h : l.length = n) :
    readBytes n (l ++ r) = some (l, r) := by
  subst h; exact readBytes_append l r

theorem readUInt_encode (w v : Nat) (hv : v < 256 ^ w) (r : List Nat) :
    readUInt w (natToLE w v ++ r) = some (v, r) := by
  unfold readUInt
  rw [readBytes_append_of_length (natToLE w v) r (natToLE_length w v)]
  simp [leToNat_natToLE_of_lt hv]

theorem readUInt_eq_some {w : Nat} {input : List Nat} {v : Nat} {rest : List Nat}
    (h : readUInt w input = some (v, rest)) :
    v < 256 ^ w ∧ input.length = w + rest.length := by
  unfold readUInt at h
  cases hb : readBytes w input with
  | none => rw [hb] at h; cases h
  | some p =>
    obtain ⟨out, rest'⟩ := p
    rw [hb] at h
    simp only [Option.map_some'] at h
    injection h with h'
    injection h' with h1 h2
    obtain ⟨-, -, hlen, hinp⟩ := readBytes_eq_some hb
    subst h2
    constructor
    · rw [← h1, ← hlen]; exact leToNat_lt out
    · exact hinp

theorem readBool_encode (b : Bool) (r : List Nat) :
    readBool (encodeBool b ++ r) = some (b, r) := by
  cases b <;> simp [readBool, encodeBool]

theorem readBool_eq_some {input : List Nat} {b : Bool} {rest : List Nat}
    (h : readBool input = some (b, rest)) : input.length = 1 + rest.length := by
  cases input with
  | nil => cases h
  | cons x xs =>
    simp only [readBool] at h
    split_ifs at h <;>
      (injection h with h'; injection h' with h1 h2; subst h2; simp [Nat.add_comm])

theorem readString_encode (s : List Nat) (hs : s.length < 256 ^ 4) (r : List Nat) :
    readString (natToLE 4 s.length ++ (s ++ r)) = some (s, r) := by
  simp only [readString, readUInt_encode 4 s.length hs]
  exact readBytes_append s r

theorem readString_eq_some {input out rest : List Nat}
    (h : readString input = some (out, rest)) :
    out.length < 256 ^ 4 ∧ input.length = 4 + out.length + rest.length := by
  unfold readString at h
  cases hu : readUInt 4 input with
  | none => rw [hu] at h; cases h
  | some p =>
    obtain ⟨len, r1⟩ := p
    rw [hu] at h
    obtain ⟨hlt, hlen1⟩ := readUInt_eq_some hu
    obtain ⟨-, -, holen, hr1⟩ := readBytes_eq_some h
    constructor
    · rw [holen]; exact hlt
    · omega

theorem encodeBetState_length (s : BetState) :
    (encodeBetState s).length = 66 + s.name.length + s.description.length := by
  simp [encodeBetState, natToLE_length, encodeBool]
  omega

theorem encodeBettorDetails_length (d : BettorDetails) :
    (encodeBettorDetails d).length = 74 := by
  simp [encodeBettorDetails, natToLE_length, encodeBool]

/-- Well-formedness of a `BetState` value: every numeric field fits its wire
width. Every decoded value is well-formed, and well-formed values round-trip. -/
def BetState.wf (s : BetState) : Prop :=
  s.creator < 256 ^ 32 ∧ s.name.length < 256 ^ 4 ∧ s.description.length < 256 ^ 4 ∧
  s.total_pool < 256 ^ 8 ∧ s.party1_pool < 256 ^ 8 ∧ s.party2_pool < 256 ^ 8

theorem decodeBetStateAux_encode (s : BetState) (r : List Nat) (hs : s.wf) :
    decodeBetStateAux (encodeBetState s ++ r) = some (s, r) := by
  obtain ⟨h1, h2, h3, h4, h5, h6⟩ := hs
  simp only [decodeBetStateAux, encodeBetState, List.append_assoc,
    readUInt_encode 32 s.creator h1,
    readString_encode s.name h2,
    readString_encode s.description h3,
    readUInt_encode 8 s.total_pool h4,
    readUInt_encode 8 s.party1_pool h5,
    readUInt_encode 8 s.party2_pool h6,
    readBool_encode s.outcome.party1_result,
    readBool_encode s.outcome.party2_result]

theorem betStateTryFromSlice_encode (s : BetState) (hs : s.wf) :
    betStateTryFromSlice (encodeBetState s) = some s := by
  unfold betStateTryFromSlice
  have h := decodeBetStateAux_encode s [] hs
  rw [List.append_nil] at h
  rw [h]

theorem decodeBetStateAux_eq_some {input : List Nat} {s : BetState} {rest : List Nat}
    (h : decodeBetStateAux input = some (s, rest)) :
    s.wf ∧ input.length = (encodeBetState s).length + rest.length := by
  unfold decodeBetStateAux at h
  split at h
  · cases h
  next creator r1 h1 =>
  split at h
  · cases h
  next nm r2 h2 =>
  split at h
  · cases h
  next ds r3 h3 =>
  split at h
  · cases h
  next tp r4 h4 =>
  split at h
  · cases h
  next p1v r5 h5 =>
  split at h
  · cases h
  next p2v r6 h6 =>
  split at h
  · cases h
  next o1 r7 h7 =>
  split at h
  · cases h
  next o2 r8 h8 =>
  injection h with h'
  injection h' with hS hR
  subst hS; subst hR
  obtain ⟨hc, hl1⟩ := readUInt_eq_some h1
  obtain ⟨hn, hl2⟩ := readString_eq_some h2
  obtain ⟨hd, hl3⟩ := readString_eq_some h3
  obtain ⟨ht, hl4⟩ := readUInt_eq_some h4
  obtain ⟨hp1, hl5⟩ := readUInt_eq_some h5
  obtain ⟨hp2, hl6⟩ := readUInt_eq_some h6
  have hl7 := readBool_eq_some h7
  have hl8 := readBool_eq_some h8
  refine ⟨⟨hc, hn, hd, ht, hp1, hp2⟩, ?_⟩
  rw [encodeBetState_length]
  simp only []
  omega

theorem betStateTryFromSlice_eq_some {input : List Nat} {s : BetState}
    (h : betStateTryFromSlice input = some s) :
    s.wf ∧ input.length = (encodeBetState s).length := by
  unfold betStateTryFromSlice at h
  cases hd : decodeBetStateAux input with
  | none => rw [hd] at h; cases h
  | some p =>
    obtain ⟨s', rest⟩ := p
    rw [hd] at h
    cases rest with
    | cons x xs => cases h
    | nil =>
      injection h with h'
      subst h'
      obtain ⟨hwf, hlen⟩ := decodeBetStateAux_eq_some hd
      exact ⟨hwf, by simpa using hlen⟩

/-! ## Claim theorems -/

/-- C9: for every input, the `settle_bet_outcome` and `claim_winnings`
handlers return success and leave every account (data and balance)
completely unchanged: their bodies are `Ok(())` stubs. -/
theorem settle_and_claim_are_no_ops (pid : Nat) (accounts : List AccountInfo)
    (data : List Nat) :
    settle_bet_outcome pid accounts data = (.ok, accounts) ∧
    claim_winnings pid accounts data = (.ok, accounts) :=
  ⟨rfl, rfl⟩

/-- C6 (code bug witness): `settle_bet_outcome` on an already-settled market
(outcome `{true, false}`) with a payload proposing a new outcome returns
success, performs no `AlreadySettled` rejection, and writes nothing — the
market record is returned byte-for-byte unchanged, contradicting the
specified SettleOutcome contract. -/
theorem settle_bet_outcome_ignores_settled_market :
    settle_bet_outcome 1
      [{ key := 5, owner := 1, is_signer := true, lamports := 100,
         data := encodeBetState
           { creator := 7, name := [1, 2, 3, 4, 5],
             description := [1, 2, 3, 4, 5, 6, 7, 8, 9, 10],
             total_pool := 0, party1_pool := 0, party2_pool := 0,
             outcome := { party1_result := true, party2_result := false } } }]
      [0, 1] =
    (.ok,
      [{ key := 5, owner := 1, is_signer := true, lamports := 100,
         data := encodeBetState
           { creator := 7, name := [1, 2, 3, 4, 5],
             description := [1, 2, 3, 4, 5, 6, 7, 8, 9, 10],
             total_pool := 0, party1_pool := 0, party2_pool := 0,
             outcome := { party1_result := true, party2_result := false } } }]) :=
  rfl

/-- C7: the dispatcher rejects an empty request before any dispatch; a first
byte in `{0,1,2,3}` invokes the matching handler on exactly the remaining
bytes; any other first byte is rejected with `InvalidInstructionData` and
the accounts are untouched. -/
theorem process_instruction_dispatch (pid : Nat) (rent : Nat → Nat)
    (accounts : List AccountInfo) (data : List Nat) :
    (data = [] →
      process_instruction pid rent accounts data =
        (.err .invalidInstructionData, accounts)) ∧
    (∀ b rest, data = b :: rest →
      (b = 0 → process_instruction pid rent accounts data =
        initialize_bet pid rent accounts rest) ∧
      (b = 1 → process_instruction pid rent accounts data =
        place_wager pid rent accounts rest) ∧
      (b = 2 → process_instruction pid rent accounts data =
        settle_bet_outcome pid accounts rest) ∧
      (b = 3 → process_instruction pid rent accounts data =
        claim_winnings pid accounts rest) ∧
      (b ≠ 0 → b ≠ 1 → b ≠ 2 → b ≠ 3 →
        process_instruction pid rent accounts data =
          (.err .invalidInstructionData, accounts))) := by
  constructor
  · rintro rfl
    rfl
  · rintro b rest rfl
    refine ⟨?_, ?_, ?_, ?_, ?_⟩
    · rintro rfl; rfl
    · rintro rfl; rfl
    · rintro rfl; rfl
    · rintro rfl; rfl
    · intro h0 h1 h2 h3
      simp [process_instruction, h0, h1, h2, h3]

/-- Witness for C7: a request with opcode byte 9 is rejected with
`InvalidInstructionData` and the account list is untouched. -/
theorem process_instruction_dispatch_witness :
    process_instruction 0 (fun _ => 0) [] [9, 4, 2] =
      (.err .invalidInstructionData, []) :=
  (((process_instruction_dispatch 0 (fun _ => 0) [] [9, 4, 2]).2 9 [4, 2]
    rfl).2.2.2.2) (by decide) (by decide) (by decide) (by decide)

/-- C8: a CreateMarket payload whose decoded name is shorter than 5 bytes is
rejected with `InvalidInstructionData` (the short-name validation error) and
the whole account list — in particular the market record's data buffer — is
returned byte-for-byte unchanged. -/
theorem initialize_bet_short_name (pid : Nat) (rent : Nat → Nat)
    (w c : AccountInfo) (rest : List AccountInfo) (data : List Nat) (bs : BetState)
    (hown : w.owner = pid) (hsig : c.is_signer = true)
    (hdec : betStateTryFromSlice data = some bs) (hname : bs.name.length < 5) :
    initialize_bet pid rent (w :: c :: rest) data =
      (.err .invalidInstructionData, w :: c :: rest) := by
  unfold initialize_bet
  simp [hown, hsig, hdec, hname]

/-- Witness for C8: a concrete short-name payload is rejected and the market
record keeps its previous bytes. -/
theorem initialize_bet_short_name_witness :
    initialize_bet 1 (fun _ => 0)
      [{ key := 5, owner := 1, is_signer := false, lamports := 3, data := [0, 0, 0] },
       { key := 7, owner := 0, is_signer := true, lamports := 0, data := [] }]
      (encodeBetState
        { creator := 7, name := [1, 2, 3],
          description := [1, 2, 3, 4, 5, 6, 7, 8, 9, 10],
          total_pool := 11, party1_pool := 4, party2_pool := 7,
          outcome := { party1_result := true, party2_result := false } }) =
      (.err .invalidInstructionData,
        [{ key := 5, owner := 1, is_signer := false, lamports := 3, data := [0, 0, 0] },
         { key := 7, owner := 0, is_signer := true, lamports := 0, data := [] }]) :=
  initialize_bet_short_name 1 (fun _ => 0) _ _ _ _
    { creator := 7, name := [1, 2, 3],
      description := [1, 2, 3, 4, 5, 6, 7, 8, 9, 10],
      total_pool := 11, party1_pool := 4, party2_pool := 7,
      outcome := { party1_result := true, party2_result := false } }
    rfl rfl (by decide) (by decide)

/-- C5: for every CreateMarket call that succeeds on a decoded payload with
`name.length ≥ 5` and `description.length ≥ 10`, the MarketState written back
to the market record is the payload with `total_pool = party1_pool =
party2_pool = 0` and `outcome = {false, false}` — the pool and outcome values
carried in the payload are discarded. -/
theorem initialize_bet_creates_zeroed_market (pid : Nat) (rent : Nat → Nat)
    (w c : AccountInfo) (rest : List AccountInfo) (data : List Nat) (bs : BetState)
    (hdec : betStateTryFromSlice data = some bs)
    (hname : 5 ≤ bs.name.length) (hdesc : 10 ≤ bs.description.length)
    (hok : (initialize_bet pid rent (w :: c :: rest) data).1 = .ok) :
    (initialize_bet pid rent (w :: c :: rest) data).2 =
      { w with data := encodeBetState (zeroedState bs) ++
          w.data.drop (encodeBetState (zeroedState bs)).length } :: c :: rest ∧
    (zeroedState bs).total_pool = 0 ∧ (zeroedState bs).party1_pool = 0 ∧
    (zeroedState bs).party2_pool = 0 ∧
    (zeroedState bs).outcome = { party1_result := false, party2_result := false } := by
  refine ⟨?_, rfl, rfl, rfl, rfl⟩
  unfold initialize_bet serializeInto at hok ⊢
  simp only [hdec] at hok ⊢
  split_ifs at hok ⊢ with h1 h2 h3 h4 h5 h6
  all_goals simp_all [zeroedState]

/-- Witness for C5: a concrete CreateMarket call whose payload carries
nonzero pools and a set outcome produces a market record holding the zeroed
state. -/
theorem initialize_bet_creates_zeroed_market_witness :
    (initialize_bet 1 (fun _ => 0) [sampleMarketAcct, sampleCreatorAcct]
        (encodeBetState sampleBetPayload)).2 =
      { sampleMarketAcct with
        data := encodeBetState (zeroedState sampleBetPayload) ++
          sampleMarketAcct.data.drop
            (encodeBetState (zeroedState sampleBetPayload)).length } ::
        sampleCreatorAcct :: [] ∧
    (zeroedState sampleBetPayload).total_pool = 0 ∧
    (zeroedState sampleBetPayload).party1_pool = 0 ∧
    (zeroedState sampleBetPayload).party2_pool = 0 ∧
    (zeroedState sampleBetPayload).outcome =
      { party1_result := false, party2_result := false } :=
  initialize_bet_creates_zeroed_market 1 (fun _ => 0) sampleMarketAcct
    sampleCreatorAcct [] (encodeBetState sampleBetPayload) sampleBetPayload
    (by decide) (by decide) (by decide) (by decide)

/-! ## PlaceWager helper lemmas -/

theorem serializeInto_fst_ok_iff (bytes buf : List Nat) :
    (serializeInto bytes buf).1 = Except.ok () ↔ bytes.length ≤ buf.length := by
  unfold serializeInto
  split_ifs with h <;> simp [h]

/-- Shape of a successful `place_wager` run: the market record's state becomes
`wageredState`, its balance grows by the funding balance, the funding record
is zeroed, and the wager record receives the encoded `BettorDetails` whose
`value` is the funding balance. -/
theorem place_wager_ok_shape (pid : Nat) (rent : Nat → Nat) (w x b c : AccountInfo)
    (rest : List AccountInfo) (data : List Nat) (d : BettorDetails) (s : BetState)
    (hown : w.owner = pid) (hsig : c.is_signer = true)
    (hd : bettorDetailsTryFromSlice data = some d)
    (hs : betStateTryFromSlice w.data = some s)
    (hrent : rent b.data.length ≤ b.lamports)
    (hbfit : 74 ≤ b.data.length) :
    place_wager pid rent (w :: x :: b :: c :: rest) data =
      (.ok,
        { w with
          lamports := (w.lamports + x.lamports) % 2 ^ 64,
          data := encodeBetState (wageredState s d x.lamports) } ::
        { x with lamports := 0 } ::
        { b with data := encodeBettorDetails { d with value := x.lamports } ++
            b.data.drop 74 } ::
        c :: rest) := by
  have hlen := (betStateTryFromSlice_eq_some hs).2
  unfold place_wager serializeInto
  simp only [hown, hsig, hd, hs, ne_eq, not_true_eq_false, Bool.not_true,
    Bool.false_eq_true, if_false, not_lt.mpr hrent, encodeBettorDetails_length, hbfit]
  simp [not_lt.mpr hrent, encodeBettorDetails_length, hbfit, encodeBetState_length,
    hlen, wageredState, List.drop_eq_nil_of_le]

/-- A successful `place_wager` run implies every guard passed: ownership,
signature, both decodes, the rent check, and room for the wager record. -/
theorem place_wager_ok_inv (pid : Nat) (rent : Nat → Nat) (w x b c : AccountInfo)
    (rest : List AccountInfo) (data : List Nat)
    (hok : (place_wager pid rent (w :: x :: b :: c :: rest) data).1 = .ok) :
    ∃ d s, w.owner = pid ∧ c.is_signer = true ∧
      bettorDetailsTryFromSlice data = some d ∧
      betStateTryFromSlice w.data = some s ∧
      rent b.data.length ≤ b.lamports ∧ 74 ≤ b.data.length := by
  unfold place_wager at hok
  dsimp only [] at hok
  split at hok
  next hown2 => exact absurd hok (by simp)
  next hown2 =>
  split at hok
  next hsig2 => exact absurd hok (by simp)
  next hsig2 =>
  split at hok
  next hd2 => exact absurd hok (by simp)
  next d hd2 =>
  split at hok
  next hs2 => exact absurd hok (by simp)
  next s hs2 =>
  split at hok
  next hrent2 => exact absurd hok (by simp)
  next hrent2 =>
  try dsimp only [] at hok
  split at hok
  next e hser1 => exact absurd hok (by simp)
  next a hser1 =>
  try dsimp only [] at hok
  split at hok
  next e hser2 => exact absurd hok (by simp)
  next a2 hser2 =>
  have h74 : 74 ≤ b.data.length := by
    have hko : (serializeInto (encodeBettorDetails { d with value := x.lamports })
        b.data).1 = Except.ok () := by rw [hser1]
    have := (serializeInto_fst_ok_iff _ _).mp hko
    simpa [encodeBettorDetails_length] using this
  exact ⟨d, s, not_ne_iff.mp hown2, by simpa using hsig2, hd2, hs2,
    not_lt.mp hrent2, h74⟩

/-- C2 counterexample: a PlaceWager payload decoding to both side flags
false is accepted — the call returns `Ok` and mutates the records, instead
of failing with a validation error: no side check exists in `place_wager`. -/
theorem place_wager_accepts_sideless_payload :
    bettorDetailsTryFromSlice (encodeBettorDetails sampleSidelessDetails) =
      some sampleSidelessDetails ∧
    sampleSidelessDetails.party1 = false ∧ sampleSidelessDetails.party2 = false ∧
    (place_wager 1 (fun _ => 0)
      [samplePoolMarketAcct, sampleFundingAcct, sampleBettorAcct, sampleCreatorAcct]
      (encodeBettorDetails sampleSidelessDetails)).1 = .ok ∧
    (place_wager 1 (fun _ => 0)
      [samplePoolMarketAcct, sampleFundingAcct, sampleBettorAcct, sampleCreatorAcct]
      (encodeBettorDetails sampleSidelessDetails)).2 ≠
      [samplePoolMarketAcct, sampleFundingAcct, sampleBettorAcct, sampleCreatorAcct] := by
  exact ⟨by decide, rfl, rfl, by decide, by decide⟩

/-- C2 amended: `place_wager` performs no validation of the side flags —
whenever the ownership, signature, decode, rent and buffer-size checks pass,
the call succeeds regardless of the decoded `{party1, party2}` combination
(both-false and both-true included). -/
theorem place_wager_ignores_side_flags (pid : Nat) (rent : Nat → Nat)
    (w x b c : AccountInfo) (rest : List AccountInfo) (data : List Nat)
    (d : BettorDetails) (s : BetState)
    (hown : w.owner = pid) (hsig : c.is_signer = true)
    (hd : bettorDetailsTryFromSlice data = some d)
    (hs : betStateTryFromSlice w.data = some s)
    (hrent : rent b.data.length ≤ b.lamports)
    (hbfit : 74 ≤ b.data.length) :
    (place_wager pid rent (w :: x :: b :: c :: rest) data).1 = .ok := by
  rw [place_wager_ok_shape pid rent w x b c rest data d s hown hsig hd hs hrent hbfit]

/-- Witness for C2's amended claim: a both-sides-true payload is accepted. -/
theorem place_wager_ignores_side_flags_witness :
    (place_wager 1 (fun _ => 0)
      [samplePoolMarketAcct, sampleFundingAcct, sampleBettorAcct, sampleCreatorAcct]
      (encodeBettorDetails sampleBothTrueDetails)).1 = .ok :=
  place_wager_ignores_side_flags 1 (fun _ => 0) samplePoolMarketAcct
    sampleFundingAcct sampleBettorAcct sampleCreatorAcct []
    (encodeBettorDetails sampleBothTrueDetails) sampleBothTrueDetails
    sampleOpenMarketState rfl rfl (by decide) (by decide) (by decide) (by decide)

/-- C3: a successful PlaceWager zeroes the funding record's balance, credits
the market record with exactly the funding record's prior balance, and keeps
the summed balance of the two records unchanged. -/
theorem place_wager_conserves_funds (pid : Nat) (rent : Nat → Nat)
    (w x b c : AccountInfo) (rest : List AccountInfo) (data : List Nat)
    (hok : (place_wager pid rent (w :: x :: b :: c :: rest) data).1 = .ok)
    (hnof : w.lamports + x.lamports < 2 ^ 64) :
    ∃ w' x' b', (place_wager pid rent (w :: x :: b :: c :: rest) data).2 =
      w' :: x' :: b' :: c :: rest ∧
      x'.lamports = 0 ∧
      w'.lamports = w.lamports + x.lamports ∧
      w'.lamports + x'.lamports = w.lamports + x.lamports := by
  obtain ⟨d, s, hown, hsig, hd, hs, hrent, hbfit⟩ :=
    place_wager_ok_inv pid rent w x b c rest data hok
  rw [place_wager_ok_shape pid rent w x b c rest data d s hown hsig hd hs hrent hbfit]
  refine ⟨_, _, _, rfl, rfl, ?_, ?_⟩
  · show (w.lamports + x.lamports) % 2 ^ 64 = w.lamports + x.lamports
    exact Nat.mod_eq_of_lt hnof
  · show (w.lamports + x.lamports) % 2 ^ 64 + 0 = w.lamports + x.lamports
    rw [Nat.add_zero]
    exact Nat.mod_eq_of_lt hnof

/-- Witness for C3: a concrete wager of 100 lamports moves the whole funding
balance into the market record. -/
theorem place_wager_conserves_funds_witness :
    ∃ w' x' b', (place_wager 1 (fun _ => 0)
      [samplePoolMarketAcct, sampleFundingAcct, sampleBettorAcct, sampleCreatorAcct]
      (encodeBettorDetails sampleParty1Details)).2 =
      w' :: x' :: b' :: sampleCreatorAcct :: [] ∧
      x'.lamports = 0 ∧
      w'.lamports = samplePoolMarketAcct.lamports + sampleFundingAcct.lamports ∧
      w'.lamports + x'.lamports =
        samplePoolMarketAcct.lamports + sampleFundingAcct.lamports :=
  place_wager_conserves_funds 1 (fun _ => 0) samplePoolMarketAcct
    sampleFundingAcct sampleBettorAcct sampleCreatorAcct []
    (encodeBettorDetails sampleParty1Details) (by decide) (by decide)

theorem place_wager_owner_fail (pid : Nat) (rent : Nat → Nat) (w x b c : AccountInfo)
    (rest : List AccountInfo) (data : List Nat) (h : w.owner ≠ pid) :
    place_wager pid rent (w :: x :: b :: c :: rest) data =
      (.err .incorrectProgramId, w :: x :: b :: c :: rest) := by
  unfold place_wager
  simp [h]

theorem place_wager_signer_fail (pid : Nat) (rent : Nat → Nat) (w x b c : AccountInfo)
    (rest : List AccountInfo) (data : List Nat) (h1 : w.owner = pid)
    (h2 : c.is_signer = false) :
    place_wager pid rent (w :: x :: b :: c :: rest) data =
      (.err .incorrectProgramId, w :: x :: b :: c :: rest) := by
  unfold place_wager
  simp [h1, h2]

theorem place_wager_payload_panic (pid : Nat) (rent : Nat → Nat) (w x b c : AccountInfo)
    (rest : List AccountInfo) (data : List Nat) (h1 : w.owner = pid)
    (h2 : c.is_signer = true) (hd : bettorDetailsTryFromSlice data = none) :
    place_wager pid rent (w :: x :: b :: c :: rest) data =
      (.panicked, w :: x :: b :: c :: rest) := by
  unfold place_wager
  simp [h1, h2, hd]

theorem place_wager_rent_fail (pid : Nat) (rent : Nat → Nat) (w x b c : AccountInfo)
    (rest : List AccountInfo) (data : List Nat) (d : BettorDetails) (s : BetState)
    (h1 : w.owner = pid) (h2 : c.is_signer = true)
    (hd : bettorDetailsTryFromSlice data = some d)
    (hs : betStateTryFromSlice w.data = some s)
    (hr : b.lamports < rent b.data.length) :
    place_wager pid rent (w :: x :: b :: c :: rest) data =
      (.err .insufficientFunds, w :: x :: b :: c :: rest) := by
  unfold place_wager
  simp [h1, h2, hd, hs, hr]

theorem place_wager_bettor_serialize_fail (pid : Nat) (rent : Nat → Nat)
    (w x b c : AccountInfo) (rest : List AccountInfo) (data : List Nat)
    (d : BettorDetails) (s : BetState)
    (h1 : w.owner = pid) (h2 : c.is_signer = true)
    (hd : bettorDetailsTryFromSlice data = some d)
    (hs : betStateTryFromSlice w.data = some s)
    (hr : rent b.data.length ≤ b.lamports)
    (hb : b.data.length < 74) :
    place_wager pid rent (w :: x :: b :: c :: rest) data =
      (.err .borshIoError,
        w :: x ::
        { b with
          data :=
            (encodeBettorDetails { d with value := x.lamports }).take b.data.length } ::
        c :: rest) := by
  unfold place_wager serializeInto
  simp [h1, h2, hd, hs, not_lt.mpr hr, encodeBettorDetails_length, hb, not_le.mpr hb]

/-- C10: `place_wager` never inspects the market's outcome flags: for two
market records identical except for the outcome field of their stored state,
the handler returns the same result, applies the same balance and pool
updates, touches the other records identically, and each run merely carries
its own outcome flags through unchanged — so a wager can still be placed
after the outcome has been set. -/
theorem place_wager_outcome_independent (pid : Nat) (rent : Nat → Nat)
    (w1 w2 x b c : AccountInfo) (rest : List AccountInfo) (data : List Nat)
    (s1 s2 : BetState)
    (hs1 : betStateTryFromSlice w1.data = some s1)
    (hs2 : betStateTryFromSlice w2.data = some s2)
    (hkey : w2.key = w1.key) (howner : w2.owner = w1.owner)
    (hsg : w2.is_signer = w1.is_signer) (hlam : w2.lamports = w1.lamports)
    (hcr : s2.creator = s1.creator) (hnm : s2.name = s1.name)
    (hds : s2.description = s1.description) (htp : s2.total_pool = s1.total_pool)
    (hp1 : s2.party1_pool = s1.party1_pool) (hp2 : s2.party2_pool = s1.party2_pool) :
    (place_wager pid rent (w1 :: x :: b :: c :: rest) data).1 =
      (place_wager pid rent (w2 :: x :: b :: c :: rest) data).1 ∧
    ∃ m1 m2 t,
      (place_wager pid rent (w1 :: x :: b :: c :: rest) data).2 = m1 :: t ∧
      (place_wager pid rent (w2 :: x :: b :: c :: rest) data).2 = m2 :: t ∧
      m2.key = m1.key ∧ m2.owner = m1.owner ∧ m2.is_signer = m1.is_signer ∧
      m2.lamports = m1.lamports ∧
      ((m1.data = w1.data ∧ m2.data = w2.data) ∨
        ∃ s', m1.data = encodeBetState s' ∧ s'.outcome = s1.outcome ∧
          m2.data = encodeBetState { s' with outcome := s2.outcome }) := by
  by_cases hown : w1.owner = pid
  case neg =>
    have hown2 : w2.owner ≠ pid := by rw [howner]; exact hown
    rw [place_wager_owner_fail pid rent w1 x b c rest data hown,
        place_wager_owner_fail pid rent w2 x b c rest data hown2]
    exact ⟨rfl, w1, w2, _, rfl, rfl, hkey, howner, hsg, hlam, Or.inl ⟨rfl, rfl⟩⟩
  case pos =>
  have hownp2 : w2.owner = pid := by rw [howner]; exact hown
  by_cases hsig : c.is_signer = true
  case neg =>
    have hsf : c.is_signer = false := by simpa using hsig
    rw [place_wager_signer_fail pid rent w1 x b c rest data hown hsf,
        place_wager_signer_fail pid rent w2 x b c rest data hownp2 hsf]
    exact ⟨rfl, w1, w2, _, rfl, rfl, hkey, howner, hsg, hlam, Or.inl ⟨rfl, rfl⟩⟩
  case pos =>
  cases hd : bettorDetailsTryFromSlice data with
  | none =>
    rw [place_wager_payload_panic pid rent w1 x b c rest data hown hsig hd,
        place_wager_payload_panic pid rent w2 x b c rest data hownp2 hsig hd]
    exact ⟨rfl, w1, w2, _, rfl, rfl, hkey, howner, hsg, hlam, Or.inl ⟨rfl, rfl⟩⟩
  | some d =>
  by_cases hrent : b.lamports < rent b.data.length
  case pos =>
    rw [place_wager_rent_fail pid rent w1 x b c rest data d s1 hown hsig hd hs1 hrent,
        place_wager_rent_fail pid rent w2 x b c rest data d s2 hownp2 hsig hd hs2 hrent]
    exact ⟨rfl, w1, w2, _, rfl, rfl, hkey, howner, hsg, hlam, Or.inl ⟨rfl, rfl⟩⟩
  case neg =>
  have hrent' : rent b.data.length ≤ b.lamports := not_lt.mp hrent
  by_cases hbfit : 74 ≤ b.data.length
  case neg =>
    have hb : b.data.length < 74 := not_le.mp hbfit
    rw [place_wager_bettor_serialize_fail pid rent w1 x b c rest data d s1 hown hsig
          hd hs1 hrent' hb,
        place_wager_bettor_serialize_fail pid rent w2 x b c rest data d s2 hownp2 hsig
          hd hs2 hrent' hb]
    exact ⟨rfl, w1, w2, _, rfl, rfl, hkey, howner, hsg, hlam, Or.inl ⟨rfl, rfl⟩⟩
  case pos =>
  rw [place_wager_ok_shape pid rent w1 x b c rest data d s1 hown hsig hd hs1
        hrent' hbfit,
      place_wager_ok_shape pid rent w2 x b c rest data d s2 hownp2 hsig hd hs2
        hrent' hbfit]
  refine ⟨rfl, _, _, _, rfl, rfl, hkey, howner, hsg, by rw [hlam],
    Or.inr ⟨wageredState s1 d x.lamports, rfl, rfl, ?_⟩⟩
  unfold wageredState
  simp [hcr, hnm, hds, htp, hp1, hp2]

/-- Witness for C10: placing a wager on the settled variant of a concrete
market produces the same handler result as on the open variant. -/
theorem place_wager_outcome_independent_witness :
    (place_wager 1 (fun _ => 0)
      [samplePoolMarketAcct, sampleFundingAcct, sampleBettorAcct, sampleCreatorAcct]
      (encodeBettorDetails sampleParty1Details)).1 =
    (place_wager 1 (fun _ => 0)
      [sampleSettledMarketAcct, sampleFundingAcct, sampleBettorAcct, sampleCreatorAcct]
      (encodeBettorDetails sampleParty1Details)).1 :=
  (place_wager_outcome_independent 1 (fun _ => 0) samplePoolMarketAcct
    sampleSettledMarketAcct sampleFundingAcct sampleBettorAcct sampleCreatorAcct []
    (encodeBettorDetails sampleParty1Details) sampleOpenMarketState
    sampleSettledMarketState (by decide) (by decide) rfl rfl rfl rfl rfl rfl rfl
    rfl rfl rfl).1

theorem serializeInto_fst_error {bytes buf : List Nat} {e : ProgramError}
    (h : (serializeInto bytes buf).1 = Except.error e) :
    e = ProgramError.borshIoError := by
  unfold serializeInto at h
  split_ifs at h <;> simp_all

theorem initialize_bet_err_unchanged (pid : Nat) (rent : Nat → Nat)
    (accounts : List AccountInfo) (data : List Nat) (e : ProgramError)
    (herr : (initialize_bet pid rent accounts data).1 = .err e)
    (hne : e ≠ .borshIoError) :
    (initialize_bet pid rent accounts data).2 = accounts := by
  rcases hres : initialize_bet pid rent accounts data with ⟨r, accs⟩
  rw [hres] at herr
  dsimp only [] at herr
  subst herr
  match accounts with
  | [] => injection hres with h1 h2; exact h2.symm
  | [a] => injection hres with h1 h2; exact h2.symm
  | w :: c :: rest =>
    unfold initialize_bet at hres
    dsimp only [] at hres
    split at hres
    next => injection hres with h1 h2; exact h2.symm
    next =>
    split at hres
    next => injection hres with h1 h2; exact h2.symm
    next =>
    split at hres
    next => injection hres with h1 h2; simp_all
    next bs hdec =>
    split at hres
    next => injection hres with h1 h2; exact h2.symm
    next =>
    split at hres
    next => injection hres with h1 h2; exact h2.symm
    next =>
    split at hres
    next => injection hres with h1 h2; exact h2.symm
    next =>
    split at hres
    next => injection hres with h1 h2; exact h2.symm
    next =>
    try dsimp only [] at hres
    split at hres
    next e2 hser =>
      injection hres with h1 h2
      injection h1 with h1'
      rw [← h1'] at hne
      exact absurd (serializeInto_fst_error hser) hne
    next => injection hres with h1 h2; simp_all

theorem place_wager_err_unchanged (pid : Nat) (rent : Nat → Nat)
    (accounts : List AccountInfo) (data : List Nat) (e : ProgramError)
    (herr : (place_wager pid rent accounts data).1 = .err e)
    (hne : e ≠ .borshIoError) :
    (place_wager pid rent accounts data).2 = accounts := by
  rcases hres : place_wager pid rent accounts data with ⟨r, accs⟩
  rw [hres] at herr
  dsimp only [] at herr
  subst herr
  match accounts with
  | [] => injection hres with h1 h2; exact h2.symm
  | [a] => injection hres with h1 h2; exact h2.symm
  | [a, a2] => injection hres with h1 h2; exact h2.symm
  | [a, a2, a3] => injection hres with h1 h2; exact h2.symm
  | w :: x :: b :: c :: rest =>
    unfold place_wager at hres
    dsimp only [] at hres
    split at hres
    next => injection hres with h1 h2; exact h2.symm
    next =>
    split at hres
    next => injection hres with h1 h2; exact h2.symm
    next =>
    split at hres
    next => injection hres with h1 h2; simp_all
    next d hd =>
    split at hres
    next => injection hres with h1 h2; simp_all
    next s hs =>
    split at hres
    next => injection hres with h1 h2; exact h2.symm
    next =>
    try dsimp only [] at hres
    split at hres
    next e2 hser =>
      injection hres with h1 h2
      injection h1 with h1'
      rw [← h1'] at hne
      exact absurd (serializeInto_fst_error hser) hne
    next =>
    try dsimp only [] at hres
    split at hres
    next e2 hser =>
      injection hres with h1 h2
      injection h1 with h1'
      rw [← h1'] at hne
      exact absurd (serializeInto_fst_error hser) hne
    next => injection hres with h1 h2; simp_all

/-- C4 amended: every handler error other than a failed write-back is
detected before any mutation and returns the account list byte-for-byte
unchanged; only `BorshIoError` — a serialize failure on a too-small record
buffer — can be returned after bytes were already copied. -/
theorem process_instruction_guard_errors_no_mutation (pid : Nat) (rent : Nat → Nat)
    (accounts : List AccountInfo) (data : List Nat) (e : ProgramError)
    (herr : (process_instruction pid rent accounts data).1 = .err e)
    (hne : e ≠ .borshIoError) :
    (process_instruction pid rent accounts data).2 = accounts := by
  cases data with
  | nil => rfl
  | cons b0 rest =>
    unfold process_instruction at herr ⊢
    by_cases h0 : b0 = 0
    · simp only [h0, if_true] at herr ⊢
      exact initialize_bet_err_unchanged pid rent accounts rest e herr hne
    · by_cases h1 : b0 = 1
      · simp only [h0, h1, if_false, if_true] at herr ⊢
        exact place_wager_err_unchanged pid rent accounts rest e herr hne
      · by_cases h2 : b0 = 2
        · simp [h0, h1, h2, settle_bet_outcome]
        · by_cases h3 : b0 = 3
          · simp [h0, h1, h2, h3, claim_winnings]
          · simp [h0, h1, h2, h3]

/-- C4 counterexample: a CreateMarket call that passes every guard but whose
market buffer (10 bytes) cannot hold the 81-byte encoding returns an error
*after* mutating the record — the buffer now holds the partially copied
prefix of the encoded state, not its pre-call bytes. -/
theorem initialize_bet_error_after_mutation :
    (initialize_bet 1 (fun _ => 0) [sampleSmallMarketAcct, sampleCreatorAcct]
      (encodeBetState sampleBetPayload)).1 = .err .borshIoError ∧
    (initialize_bet 1 (fun _ => 0) [sampleSmallMarketAcct, sampleCreatorAcct]
      (encodeBetState sampleBetPayload)).2 ≠
      [sampleSmallMarketAcct, sampleCreatorAcct] :=
  ⟨by decide, by decide⟩

/-- Witness for C4's amended claim: a rejected unknown-opcode request leaves
the accounts unchanged. -/
theorem process_instruction_guard_errors_no_mutation_witness :
    (process_instruction 1 (fun _ => 0)
      [samplePoolMarketAcct, sampleCreatorAcct] [9, 1, 2]).2 =
      [samplePoolMarketAcct, sampleCreatorAcct] :=
  process_instruction_guard_errors_no_mutation 1 (fun _ => 0)
    [samplePoolMarketAcct, sampleCreatorAcct] [9, 1, 2]
    ProgramError.invalidInstructionData (by decide) (by decide)

/-- The wire width of a `u64` field equals the handlers' wrap modulus. -/
theorem pow_256_8_eq : (256 : Nat) ^ 8 = 2 ^ 64 := by norm_num

/-- One successful exactly-one-sided wager preserves the pool invariant and
grows `total_pool` by exactly the funding balance. -/
theorem runWager_step (pid : Nat) (rent : Nat → Nat) (market m' : AccountInfo)
    (wc : WagerCall) (s : BetState)
    (hs : betStateTryFromSlice market.data = some s)
    (hinv : s.total_pool = s.party1_pool + s.party2_pool)
    (hone : wc.oneSided = true)
    (hb : s.total_pool + wc.funding.lamports < 2 ^ 64)
    (hrun : runWager pid rent market wc = some m') :
    ∃ s', betStateTryFromSlice m'.data = some s' ∧
      s'.total_pool = s'.party1_pool + s'.party2_pool ∧
      s'.total_pool = s.total_pool + wc.funding.lamports := by
  unfold runWager at hrun
  rcases hres : place_wager pid rent
      (market :: wc.funding :: wc.bettor :: wc.creator :: []) wc.payload with ⟨r, accs⟩
  rw [hres] at hrun
  cases r with
  | err e => cases accs <;> simp at hrun
  | panicked => cases accs <;> simp at hrun
  | ok =>
  have hok1 : (place_wager pid rent
      (market :: wc.funding :: wc.bettor :: wc.creator :: []) wc.payload).1 = .ok := by
    rw [hres]
  obtain ⟨d, s2, hown, hsig, hd, hs2, hrent, hbfit⟩ :=
    place_wager_ok_inv _ _ _ _ _ _ _ _ hok1
  rw [hs] at hs2
  injection hs2 with hss
  subst hss
  have hshape := place_wager_ok_shape pid rent market wc.funding wc.bettor wc.creator
    [] wc.payload d s hown hsig hd hs hrent hbfit
  rw [hshape] at hres
  injection hres with h1 h2
  subst h2
  simp only [Option.some.injEq] at hrun
  subst hrun
  have hwf := (betStateTryFromSlice_eq_some hs).1
  obtain ⟨hwc, hwn, hwd, hwt, hw1, hw2⟩ := hwf
  have ht' : (s.total_pool + wc.funding.lamports) % 2 ^ 64 =
      s.total_pool + wc.funding.lamports := Nat.mod_eq_of_lt hb
  have hwf' : (wageredState s d wc.funding.lamports).wf := by
    refine ⟨hwc, hwn, hwd, ?_, ?_, ?_⟩ <;>
      simp only [wageredState, pow_256_8_eq] <;>
      first
        | exact Nat.mod_lt _ (by norm_num)
        | (split_ifs
           · exact Nat.mod_lt _ (by norm_num)
           · rw [← pow_256_8_eq]; assumption)
  refine ⟨wageredState s d wc.funding.lamports, ?_, ?_, ?_⟩
  · exact betStateTryFromSlice_encode _ hwf'
  · unfold WagerCall.oneSided at hone
    rw [hd] at hone
    simp only [bne_iff_ne, ne_eq] at hone
    have hp1lt : s.party1_pool + wc.funding.lamports < 2 ^ 64 := by omega
    have hp2lt : s.party2_pool + wc.funding.lamports < 2 ^ 64 := by omega
    cases hq1 : d.party1 <;> cases hq2 : d.party2 <;> rw [hq1, hq2] at hone
    · exact absurd rfl hone
    · simp [wageredState, hq1, hq2, ht', Nat.mod_eq_of_lt hp2lt]
      omega
    · simp [wageredState, hq1, hq2, ht', Nat.mod_eq_of_lt hp1lt]
      omega
    · exact absurd rfl hone
  · show (s.total_pool + wc.funding.lamports) % 2 ^ 64 =
      s.total_pool + wc.funding.lamports
    exact ht'

/-- C1 amended: for every sequence of successful PlaceWager calls against one
market in which each wager backs exactly one side (and the running total does
not overflow a u64), after the sequence the stored market state satisfies
`total_pool = party1_pool + party2_pool` and `total_pool` equals its initial
value plus the sum of all wagered amounts; quantifying over all call lists
covers every prefix, i.e. the invariant holds after each call. -/
theorem place_wager_sequence_pool_invariant (pid : Nat) (rent : Nat → Nat)
    (market : AccountInfo) (s0 : BetState) (calls : List WagerCall) (m' : AccountInfo)
    (hs0 : betStateTryFromSlice market.data = some s0)
    (hinv : s0.total_pool = s0.party1_pool + s0.party2_pool)
    (hone : calls.all WagerCall.oneSided = true)
    (hbound : s0.total_pool +
      (calls.map (fun wc => wc.funding.lamports)).sum < 2 ^ 64)
    (hrun : runWagers pid rent market calls = some m') :
    ∃ s', betStateTryFromSlice m'.data = some s' ∧
      s'.total_pool = s'.party1_pool + s'.party2_pool ∧
      s'.total_pool = s0.total_pool +
        (calls.map (fun wc => wc.funding.lamports)).sum := by
  induction calls generalizing market s0 with
  | nil =>
    unfold runWagers at hrun
    injection hrun with hm
    subst hm
    exact ⟨s0, hs0, hinv, by simp⟩
  | cons wc wcs ih =>
    unfold runWagers at hrun
    cases hstep : runWager pid rent market wc with
    | none => rw [hstep] at hrun; cases hrun
    | some m1 =>
      rw [hstep] at hrun
      rw [List.all_cons, Bool.and_eq_true] at hone
      obtain ⟨hone1, honeR⟩ := hone
      have hb1 : s0.total_pool + wc.funding.lamports < 2 ^ 64 := by
        simp only [List.map_cons, List.sum_cons] at hbound
        omega
      obtain ⟨s1, hs1, hinv1, htot1⟩ :=
        runWager_step pid rent market m1 wc s0 hs0 hinv hone1 hb1 hstep
      have hbound1 : s1.total_pool +
          (wcs.map (fun wc => wc.funding.lamports)).sum < 2 ^ 64 := by
        rw [htot1]
        simp only [List.map_cons, List.sum_cons] at hbound
        omega
      obtain ⟨s', h1, h2, h3⟩ := ih m1 s1 hs1 hinv1 honeR hbound1 hrun
      refine ⟨s', h1, h2, ?_⟩
      rw [h3, htot1]
      simp only [List.map_cons, List.sum_cons]
      omega

/-- C1 counterexample: one successful PlaceWager whose payload has both side
flags true breaks the claimed invariant on a fresh market — the stored state
afterwards has `total_pool = 100` but `party1_pool + party2_pool = 200`,
because lines 196-198 add the amount to the total once and to *every*
flagged side pool, and no handler checks the flags. -/
theorem place_wager_pool_invariant_counterexample :
    sampleOpenMarketState.total_pool =
      sampleOpenMarketState.party1_pool + sampleOpenMarketState.party2_pool ∧
    (place_wager 1 (fun _ => 0)
      [samplePoolMarketAcct, sampleFundingAcct, sampleBettorAcct, sampleCreatorAcct]
      (encodeBettorDetails sampleBothTrueDetails)).1 = .ok ∧
    ((place_wager 1 (fun _ => 0)
      [samplePoolMarketAcct, sampleFundingAcct, sampleBettorAcct, sampleCreatorAcct]
      (encodeBettorDetails sampleBothTrueDetails)).2.head?.map
        (fun a => betStateTryFromSlice a.data)) = some (some sampleBrokenState) ∧
    sampleBrokenState.total_pool ≠
      sampleBrokenState.party1_pool + sampleBrokenState.party2_pool :=
  ⟨rfl, by decide, by decide, by decide⟩

/-- Witness for C1's amended claim: the spec's own scenario — a 100-lamport
wager on party 1 then a 50-lamport wager on party 2 — yields pools
`(150, 100, 50)`. -/
theorem place_wager_sequence_pool_invariant_witness :
    ∃ s', betStateTryFromSlice sampleFinalMarketAcct.data = some s' ∧
      s'.total_pool = s'.party1_pool + s'.party2_pool ∧
      s'.total_pool = sampleOpenMarketState.total_pool +
        ([sampleWagerCall1, sampleWagerCall2].map
          (fun wc => wc.funding.lamports)).sum :=
  place_wager_sequence_pool_invariant 1 (fun _ => 0) samplePoolMarketAcct
    sampleOpenMarketState [sampleWagerCall1, sampleWagerCall2] sampleFinalMarketAcct
    (by decide) rfl (by decide) (by decide) (by decide)
